import Mathlib

/-!
Shallow embedding of the decoder of the `ipinfo` repository
(src/mmdb.rs and src/mmdb/dns.rs), together with theorems checking the
natural-language specification against it.

Bytes are modelled as `Nat` values below 256, a seekable reader as an
immutable byte list plus a cursor, and machine integers as `Nat`/`Int`
with explicit `% 2 ^ w` wherever the Rust code can overflow.  Rust
release-profile semantics is used for ordinary integer arithmetic
(overflow wraps); panics that happen in every profile (the asserts
inside the byteorder crate) are modelled by the distinguished
`MmdbError.rustPanic` constructor.
-/

/-- Error type of src/mmdb.rs (`MmdbError`).  The payload of `BadIo` and
`BadConversion` is dropped.  The extra constructor `rustPanic` is not part
of the source enum: it models executions on which the Rust program panics
(for example the assert inside byteorder `read_uint` when `nbytes` is 0,
or recursion that never terminates). -/
inductive MmdbError where
  | metadataNotFound
  | invalidMetadata (msg : String)
  | invalidData (msg : String)
  | wrongDatabaseType
  | badIo
  | badConversion
  | notImplemented (msg : String)
  | rustPanic (msg : String)
deriving DecidableEq, Repr

/-- The reader monad: state is the cursor position of the `Read + Seek`
reader; the underlying bytes are passed separately and never change.
Errors keep the final cursor, mirroring a Rust `Result` returned while the
reader keeps its position. -/
def M (α : Type) : Type := Nat → Except MmdbError α × Nat

def M.pure {α : Type} (a : α) : M α := fun s => (Except.ok a, s)

def M.bind {α β : Type} (x : M α) (f : α → M β) : M β := fun s =>
  match x s with
  | (Except.ok a, t) => f a t
  | (Except.error e, t) => (Except.error e, t)

instance : Monad M where
  pure := M.pure
  bind := M.bind

def M.run {α : Type} (x : M α) (s : Nat) : Except MmdbError α × Nat := x s

/-- `reader.stream_position()`. -/
def M.getPos : M Nat := fun s => (Except.ok s, s)

/-- `reader.seek(SeekFrom::Start(p))`. -/
def M.seek (p : Nat) : M Unit := fun _ => (Except.ok (), p)

def M.throw {α : Type} (e : MmdbError) : M α := fun s => (Except.error e, s)

/-- Lift a pure `Result` into the reader monad (the `?` operator applied to
a non-reading computation). -/
def liftE {α : Type} (x : Except MmdbError α) : M α := fun s => (x, s)

/-- Capture the `Result` of a computation without propagating the error,
as in `let typ = read_type(reader, Some(metadata));` where `typ` keeps the
un-questioned `Result`. -/
def M.attempt {α : Type} (x : M α) : M (Except MmdbError α) := fun s =>
  match x s with
  | (r, t) => (Except.ok r, t)

/-- `reader.read_u8()`: one byte at the cursor, cursor advances on
success.  Reading past the end is the io error of an exhausted reader. -/
def readU8 (d : List Nat) : M Nat := fun s =>
  match d.get? s with
  | some b => (Except.ok b, s + 1)
  | none => (Except.error MmdbError.badIo, s)

/-- `reader.read_exact(&mut buf)` for a buffer of `n` bytes. -/
def readExact (d : List Nat) (n : Nat) : M (List Nat) := fun s =>
  if s + n ≤ d.length then (Except.ok ((d.drop s).take n), s + n)
  else (Except.error MmdbError.badIo, s)

/-- Big-endian value of a byte list. -/
def beVal (bs : List Nat) : Nat := bs.foldl (fun acc b => acc * 256 + b) 0

/-- byteorder `read_u16::<BigEndian>()`. -/
def readU16be (d : List Nat) : M Nat := do
  let bs ← readExact d 2
  M.pure (beVal bs)

/-- byteorder `read_u24::<BigEndian>()`. -/
def readU24be (d : List Nat) : M Nat := do
  let bs ← readExact d 3
  M.pure (beVal bs)

/-- byteorder `read_u32::<BigEndian>()`. -/
def readU32be (d : List Nat) : M Nat := do
  let bs ← readExact d 4
  M.pure (beVal bs)

/-- byteorder `read_uint::<BigEndian>(nbytes)`: reads `nbytes` bytes as a
big-endian unsigned integer.  byteorder documents a panic when
`nbytes < 1` or `nbytes > 8`, modelled by `rustPanic`. -/
def readUintBe (d : List Nat) (nbytes : Nat) : M Nat :=
  if 1 ≤ nbytes ∧ nbytes ≤ 8 then do
    let bs ← readExact d nbytes
    M.pure (beVal bs)
  else M.throw (MmdbError.rustPanic ("read_uint nbytes out of range"))

/-- byteorder `read_uint128::<BigEndian>(nbytes)`; panics outside 1..=16. -/
def readUint128Be (d : List Nat) (nbytes : Nat) : M Nat :=
  if 1 ≤ nbytes ∧ nbytes ≤ 16 then do
    let bs ← readExact d nbytes
    M.pure (beVal bs)
  else M.throw (MmdbError.rustPanic ("read_uint128 nbytes out of range"))

/-- Reinterpret a 32-bit unsigned value as an `i32`. -/
def i32OfNat (v : Nat) : Int :=
  if v < 2 ^ 31 then (v : Int) else (v : Int) - 2 ^ 32

/-- byteorder `read_i32::<BigEndian>()`. -/
def readI32be (d : List Nat) : M Int := do
  let bs ← readExact d 4
  M.pure (i32OfNat (beVal bs))

/-- The decoded value type (`Type` in src/mmdb.rs).  The source stores a
string obtained by `String::from_utf8_lossy`; the model keeps the raw
bytes instead (no claim depends on the lossy conversion).  `double` and
`float` keep the raw big-endian bit pattern of the IEEE-754 value. -/
inductive Ty where
  | utf8String (bytes : List Nat)
  | double (bits : Nat)
  | bytes (data : List Nat)
  | u16 (v : Nat)
  | u32 (v : Nat)
  | s32 (v : Int)
  | u64 (v : Nat)
  | u128 (v : Nat)
  | map (entries : List (List Nat × Ty))
  | array (items : List Ty)
  | dataCacheContainer
  | endMarker
  | boolean (v : Bool)
  | float (bits : Nat)

/-- `BTreeMap::insert`: overwrite the value when the key is present. -/
def mapInsert (es : List (List Nat × Ty)) (k : List Nat) (v : Ty) :
    List (List Nat × Ty) :=
  match es with
  | [] => [(k, v)]
  | (k', v') :: rest =>
      if k' = k then (k, v) :: rest else (k', v') :: mapInsert rest k v

/-- `BTreeMap::get`. -/
def mapGet (es : List (List Nat × Ty)) (k : List Nat) : Option Ty :=
  match es with
  | [] => none
  | (k', v) :: rest => if k' = k then some v else mapGet rest k

/-- UTF-8 encoding of one unicode code point. -/
def charUtf8Bytes (c : Nat) : List Nat :=
  if c < 0x80 then [c]
  else if c < 0x800 then
    [0xC0 ||| (c >>> 6), 0x80 ||| (c &&& 0x3F)]
  else if c < 0x10000 then
    [0xE0 ||| (c >>> 12), 0x80 ||| ((c >>> 6) &&& 0x3F), 0x80 ||| (c &&& 0x3F)]
  else
    [0xF0 ||| (c >>> 18), 0x80 ||| ((c >>> 12) &&& 0x3F),
     0x80 ||| ((c >>> 6) &&& 0x3F), 0x80 ||| (c &&& 0x3F)]

/-- UTF-8 bytes of a string (`str::as_bytes` in Rust). -/
def strBytes (s : String) : List Nat :=
  (s.data.map (fun c => charUtf8Bytes c.toNat)).flatten

/-- `MmdbMetadata`: the three fields the decoder needs.  The source types
are u32/u16; decoding only ever stores values inside those ranges. -/
structure Metadata where
  nodeCount : Nat
  recordSize : Nat
  ipVersion : Nat
deriving DecidableEq, Repr

/-- `MmdbMetadata::new`: require the three fields with the exact variants,
no constraint on their values. -/
def metadataNew (metadataMap : Ty) : Except MmdbError Metadata :=
  match metadataMap with
  | Ty.map m =>
    match mapGet m (strBytes ("node_count")) with
    | some (Ty.u32 nodeCount) =>
      match mapGet m (strBytes ("record_size")) with
      | some (Ty.u16 recordSize) =>
        match mapGet m (strBytes ("ip_version")) with
        | some (Ty.u16 ipVersion) =>
            Except.ok ⟨nodeCount, recordSize, ipVersion⟩
        | _ => Except.error (MmdbError.invalidMetadata ("does not contain ip version"))
      | _ => Except.error (MmdbError.invalidMetadata ("does not contain record size"))
    | _ => Except.error (MmdbError.invalidMetadata ("does not contain node count"))
  | _ => Except.error (MmdbError.invalidMetadata ("metadata was not encoded as map"))

/-- `bytes_per_node`: 24→6, 28→7, 32→8, otherwise invalid metadata. -/
def bytesPerNode (recordSize : Nat) : Except MmdbError Nat :=
  if recordSize = 24 then Except.ok 6
  else if recordSize = 28 then Except.ok 7
  else if recordSize = 32 then Except.ok 8
  else Except.error (MmdbError.invalidMetadata ("unsupported record_size"))

/-- The size-field resolution of `read_type` (src/mmdb.rs lines 375-385),
applied whenever the type tag is not the pointer tag.  The additions for
hints 29 and 30 are performed by the source at the width of the operand
(u8 and u16 respectively), so they wrap at that width in release builds
(and panic in debug builds). -/
def readSizeField (d : List Nat) (sizeHint : Nat) : M Nat :=
  if sizeHint ≤ 28 then M.pure sizeHint
  else if sizeHint = 29 then do
    let b ← readU8 d
    M.pure ((29 + b) % 256)
  else if sizeHint = 30 then do
    let v ← readU16be d
    M.pure ((285 + v) % 65536)
  else if sizeHint = 31 then do
    let v ← readU24be d
    M.pure (65821 + v)
  else M.throw (MmdbError.invalidData ("invalid size field"))

/-- One resolved pointer target: common tail of the four width branches of
the pointer case of `read_type`.  Computes the absolute file offset, saves
the cursor, seeks to the target, decodes one value there with the given
fuel, restores the cursor, and returns the captured result. -/
def followPointer (m : Metadata) (nextValue : Nat)
    (recurse : M Ty) : M Ty := do
  let bpn ← liftE (bytesPerNode m.recordSize)
  let dataSectionOffset := bpn * m.nodeCount + nextValue + 16
  let pos ← M.getPos
  M.seek dataSectionOffset
  let typ ← M.attempt recurse
  M.seek pos
  liftE typ

/-- `read_type` (src/mmdb.rs lines 360-560).  `fuel` bounds the recursion
depth, which the source leaves unbounded; exhausted fuel is reported as a
panic, standing for the non-terminating or stack-exhausting execution.
The escape addition `7 + next` and all size arithmetic wrap exactly where
the source operates on fixed-width integers. -/
def readType (d : List Nat) (md : Option Metadata) : Nat → M Ty
  | 0 => M.throw (MmdbError.rustPanic ("recursion fuel exhausted"))
  | fuel + 1 => do
    let controlByte ← readU8 d
    let typ0 := controlByte >>> 5
    let sizeHint := controlByte &&& 0x1f
    let typ ← match typ0 with
      | 0 => do
          let b ← readU8 d
          M.pure ((7 + b) % 256)
      | _ => M.pure typ0
    let size ← if typ ≠ 1 then readSizeField d sizeHint else M.pure sizeHint
    match typ with
    | 1 =>
      let pointerSize := size >>> 3
      let pointerValue := size &&& 7
      (match md with
       | some m =>
         (match pointerSize with
          | 0 => do
              let nextByte ← readU8 d
              let nextValue := nextByte + (pointerValue <<< 8)
              followPointer m nextValue (readType d md fuel)
          | 1 => do
              let buf ← readExact d 2
              let value := beVal buf
              let nextValue := value + (pointerValue <<< 16) + 2048
              followPointer m nextValue (readType d md fuel)
          | 2 => do
              let buf ← readExact d 3
              let value := beVal buf
              let nextValue := value + (pointerValue <<< 24) + 526336
              followPointer m nextValue (readType d md fuel)
          | 3 => do
              let nextValue ← readU32be d
              followPointer m nextValue (readType d md fuel)
          | _ => M.throw (MmdbError.invalidData ("invalid pointer size")))
       | none =>
         (match pointerSize with
          | 0 => do
              let _ ← readU8 d
              M.throw (MmdbError.invalidData ("pointer addressed before metadata parsed"))
          | 1 => do
              let _ ← readExact d 2
              M.throw (MmdbError.invalidData ("pointer addressed before metadata parsed"))
          | 2 => do
              let _ ← readExact d 3
              M.throw (MmdbError.invalidData ("pointer addressed before metadata parsed"))
          | 3 => do
              let _ ← readU32be d
              M.throw (MmdbError.invalidData ("pointer addressed before metadata parsed"))
          | _ => M.throw (MmdbError.invalidData ("invalid pointer size"))))
    | 2 => do
        let buffer ← readExact d size
        M.pure (Ty.utf8String buffer)
    | 3 => do
        let bs ← readExact d 8
        M.pure (Ty.double (beVal bs))
    | 4 => do
        let buffer ← readExact d size
        M.pure (Ty.bytes buffer)
    | 5 =>
        (match size with
         | 0 => M.pure (Ty.u16 0)
         | _ => do
             let v ← readUintBe d size
             if v < 2 ^ 16 then M.pure (Ty.u16 v)
             else M.throw MmdbError.badConversion)
    | 6 =>
        (match size with
         | 0 => M.pure (Ty.u32 0)
         | _ => do
             let v ← readUintBe d size
             if v < 2 ^ 32 then M.pure (Ty.u32 v)
             else M.throw MmdbError.badConversion)
    | 9 =>
        (match size with
         | 0 => M.pure (Ty.u64 0)
         | _ => do
             let v ← readUintBe d size
             M.pure (Ty.u64 v))
    | 10 =>
        (match size with
         | 0 => M.pure (Ty.u128 0)
         | _ => do
             let v ← readUint128Be d size
             M.pure (Ty.u128 v))
    | 8 =>
        (match size with
         | 4 => do
             let v ← readI32be d
             M.pure (Ty.s32 v)
         | 0 | 1 | 2 | 3 => do
             let v ← readUintBe d size
             M.pure (Ty.s32 (i32OfNat (v % 2 ^ 32)))
         | _ => M.throw (MmdbError.invalidData ("bad s32 size")))
    | 7 => do
        let items ← (List.range size).foldlM
          (fun (acc : List (List Nat × Ty)) _ => do
            let key ← readType d md fuel
            match key with
            | Ty.utf8String key => do
                let value ← readType d md fuel
                M.pure (mapInsert acc key value)
            | _ => M.throw (MmdbError.invalidData ("key field for map is not string")))
          []
        M.pure (Ty.map items)
    | 11 => do
        let items ← (List.range size).foldlM
          (fun (acc : List Ty) _ => do
            let item ← readType d md fuel
            M.pure (acc ++ [item]))
          []
        M.pure (Ty.array items)
    | 12 => M.throw (MmdbError.notImplemented ("data cache container"))
    | 13 => M.throw (MmdbError.notImplemented ("end marker"))
    | 14 =>
        (match size with
         | 0 => M.pure (Ty.boolean false)
         | 1 => M.pure (Ty.boolean true)
         | _ => M.throw (MmdbError.invalidData ("invalid boolean")))
    | 15 => do
        let bs ← readExact d 4
        M.pure (Ty.float (beVal bs))
    | _ => M.throw (MmdbError.invalidData ("invalid data type specifier"))

/-- `RecordReadResult`. -/
inductive RecordReadResult where
  | traverseTreeTo (pos : Nat)
  | noData
  | data (pos : Nat)
deriving DecidableEq, Repr

/-- Classification of the selected record against `node_count`
(src/mmdb.rs lines 184-201).  The offset arithmetic of the data branch is
the u128 arithmetic of the source: `selected_record - node_count - 16`
wraps at `2 ^ 128` when `selected_record - node_count < 16`, the sum with
the search-tree size wraps back, and the final cast to `usize` truncates
at `2 ^ 64`. -/
def classifyRecord (bytesPerNodeVal nodeCount selectedRecord : Nat) :
    RecordReadResult :=
  if selectedRecord < nodeCount then
    RecordReadResult.traverseTreeTo (selectedRecord * bytesPerNodeVal)
  else if selectedRecord = nodeCount then
    RecordReadResult.noData
  else
    let dataSectionOffset := (selectedRecord - nodeCount + 2 ^ 128 - 16) % 2 ^ 128
    let searchTreeSize := (bytesPerNodeVal * nodeCount) % 2 ^ 128
    let fileOffset := (dataSectionOffset + searchTreeSize + 16) % 2 ^ 128
    RecordReadResult.data (fileOffset % 2 ^ 64)

/-- `read_record` (src/mmdb.rs lines 138-202): read the two fixed-width
records of the node at the cursor (nibble-splitting the shared middle
byte in the 7-byte form), select by the address bit, and classify. -/
def readRecord (d : List Nat) (metadata : Metadata) (bitSet : Bool) :
    M RecordReadResult := do
  let bytesPerNodeVal ← liftE (bytesPerNode metadata.recordSize)
  let records ← (match bytesPerNodeVal with
    | 6 => do
        let left ← readU24be d
        let right ← readU24be d
        M.pure (left, right)
    | 7 => do
        let buf ← readExact d 7
        (match buf with
         | [b0, b1, b2, b3, b4, b5, b6] =>
             M.pure
               (((b3 &&& 0xf0) <<< 20) ||| (b0 <<< 16) ||| (b1 <<< 8) ||| b2,
                ((b3 &&& 0x0f) <<< 24) ||| (b4 <<< 16) ||| (b5 <<< 8) ||| b6)
         | _ => M.throw (MmdbError.rustPanic ("read_exact length mismatch")))
    | 8 => do
        let left ← readU32be d
        let right ← readU32be d
        M.pure (left, right)
    | _ => M.throw (MmdbError.invalidData ("bad node size")))
  let selectedRecord := match bitSet with
    | false => records.1
    | true => records.2
  M.pure (classifyRecord bytesPerNodeVal metadata.nodeCount selectedRecord)

/-- The bit the walk inspects at loop index `i`
(`(ip >> i) & 1` matched to a Bool). -/
def queryBit (ip i : Nat) : Bool :=
  match (ip >>> i) &&& 1 with
  | 1 => true
  | _ => false

/-- The `for i in (0..num_bits).rev()` loop body of `query_ip_uint`
(src/mmdb.rs lines 108-126): the argument counts the remaining bits. -/
def queryLoop (d : List Nat) (metadata : Metadata) (fuel : Nat) (ip : Nat) :
    Nat → M (Option Ty)
  | 0 => M.pure none
  | i + 1 => do
      let bit := queryBit ip i
      let record ← readRecord d metadata bit
      match record with
      | RecordReadResult.traverseTreeTo pos => do
          M.seek pos
          queryLoop d metadata fuel ip i
      | RecordReadResult.data pos => do
          M.seek pos
          let typ ← readType d (some metadata) fuel
          M.pure (some typ)
      | RecordReadResult.noData => M.pure none

/-- `Mmdb::query_ip_uint`: reset the cursor to the start of the search
tree and walk the bits most-significant first. -/
def queryIpUint (d : List Nat) (metadata : Metadata) (fuel : Nat)
    (ip numBits : Nat) : M (Option Ty) := do
  M.seek 0
  queryLoop d metadata fuel ip numBits

/-- `Mmdb::query_ipv6`, on the 128-bit value of the address. -/
def queryIpv6 (d : List Nat) (metadata : Metadata) (fuel : Nat) (ip : Nat) :
    M (Option Ty) :=
  if metadata.ipVersion = 4 then M.throw MmdbError.wrongDatabaseType
  else if metadata.ipVersion = 6 then queryIpUint d metadata fuel ip 128
  else M.throw (MmdbError.invalidMetadata ("database has invalid ip version"))

/-- `Ipv4Addr::to_ipv6_compatible().to_bits()`: the IPv4-compatible IPv6
address `::a.b.c.d`, whose 128-bit value is the 32-bit value of the IPv4
address zero-extended. -/
def ipv4ToIpv6Compatible (ip : Nat) : Nat := ip

/-- `Mmdb::query_ipv4`, on the 32-bit value of the address. -/
def queryIpv4 (d : List Nat) (metadata : Metadata) (fuel : Nat) (ip : Nat) :
    M (Option Ty) :=
  if metadata.ipVersion = 4 then queryIpUint d metadata fuel ip 32
  else if metadata.ipVersion = 6 then
    queryIpv6 d metadata fuel (ipv4ToIpv6Compatible ip)
  else M.throw (MmdbError.invalidMetadata ("database has invalid ip version"))

/-- The fixed 14-byte metadata marker `\xAB\xCD\xEF` ++ `MaxMind.com`. -/
def metadataMarker : List Nat :=
  [0xAB, 0xCD, 0xEF] ++ strBytes ("MaxMind.com")

/-- Whether the 14-byte window of `contents` at index `i` equals the
marker (window `i` of `contents.windows(METADATA_MARKER.len())`; indices
past the last full window never match because the slice is short). -/
def isMarkerAt (contents : List Nat) (i : Nat) : Bool :=
  decide (((contents.drop i).take metadataMarker.length) = metadataMarker)

/-- Scan candidate window indices `k-1, k-2, ..., 0` and return the first
(that is, rightmost) match. -/
def rfindMarkerAux (contents : List Nat) : Nat → Option Nat
  | 0 => none
  | k + 1 => if isMarkerAt contents k then some k else rfindMarkerAux contents k

/-- `contents.windows(METADATA_MARKER.len()).rposition(|x| x == METADATA_MARKER)`:
the rightmost window index whose slice equals the marker. -/
def rfindMarker (contents : List Nat) : Option Nat :=
  rfindMarkerAux contents (contents.length + 1 - metadataMarker.length)

/-- The scanned window: the last `min(file_size, 128000)` bytes of the
file, read into memory by `Mmdb::new` before the marker scan
(`start_byte` is 0 for files below 128000 bytes, `file_size - 128000`
otherwise). -/
def tailWindow (d : List Nat) : List Nat :=
  d.drop (if d.length < 128000 then 0 else d.length - 128000)

/-- The handle state: the reader (immutable bytes plus cursor) and the
metadata decoded at open time. -/
structure Mmdb where
  data : List Nat
  pos : Nat
  metadata : Metadata

/-- `Mmdb::new` (src/mmdb.rs lines 34-64): load the last
`min(file_size, 128000)` bytes, find the rightmost marker occurrence,
decode one value right after it with no metadata context, require the
three metadata fields, and return the handle with the cursor reset to 0. -/
def mmdbNew (fuel : Nat) (d : List Nat) : Except MmdbError Mmdb :=
  match rfindMarker (tailWindow d) with
  | none => Except.error MmdbError.metadataNotFound
  | some markerPos =>
      match (readType (tailWindow d) none fuel).run
          (markerPos + metadataMarker.length) with
      | (Except.ok typ, _) =>
          (match metadataNew typ with
           | Except.ok metadata => Except.ok ⟨d, 0, metadata⟩
           | Except.error e => Except.error e)
      | (Except.error e, _) => Except.error e

/-- Error type of src/mmdb/dns.rs (`DnsError`); io payloads dropped. -/
inductive DnsError where
  | bindFailed
  | connectFailed
  | writeFailed
  | sendFailed
  | recvFailed
  | domainPartTooLong
  | responseTooShort
  | dnsErrorCode (code : Nat)
  | noRecordFound (domain : String)
deriving DecidableEq, Repr

/-- Big-endian bytes of a u16 (`write_u16::<BigEndian>`). -/
def u16beBytes (v : Nat) : List Nat := [(v / 256) % 256, v % 256]

/-- The fixed 12-byte DNS header written by `query_dns_for_domain`:
transaction id 0x1234, flags with only recursion-desired set, QDCOUNT 1,
ANCOUNT 0, NSCOUNT 0, ARCOUNT 0. -/
def dnsHeader : List Nat :=
  u16beBytes 0x1234 ++ u16beBytes 0x0100 ++ u16beBytes 1 ++ u16beBytes 0 ++
    u16beBytes 0 ++ u16beBytes 0

/-- Rust `str::split('.')` on the character list of the domain: every dot
separates parts, empty parts included, and the empty string gives one
empty part. -/
def splitDot (cs : List Char) : List (List Char) :=
  match cs with
  | [] => [[]]
  | c :: rest =>
      if c = '.' then [] :: splitDot rest
      else
        match splitDot rest with
        | [] => [[c]]
        | p :: ps => (c :: p) :: ps

/-- UTF-8 bytes of one domain part (`part.as_bytes()`). -/
def partBytes (part : List Char) : List Nat :=
  (part.map (fun c => charUtf8Bytes c.toNat)).flatten

/-- The QNAME loop of `query_dns_for_domain` (src/mmdb/dns.rs lines
69-76): append a length byte and the raw bytes for every part, failing
with `DomainPartTooLong` when `u8::try_from(part.len())` fails (length
256 or more). -/
def writeQname (parts : List (List Char)) (packet : List Nat) :
    Except DnsError (List Nat) :=
  match parts with
  | [] => Except.ok packet
  | part :: rest =>
      let bs := partBytes part
      if 256 ≤ bs.length then Except.error DnsError.domainPartTooLong
      else writeQname rest (packet ++ bs.length :: bs)

/-- The DNS query packet built by `query_dns_for_domain` before it is
sent: header, length-prefixed labels of the dot-separated parts, a zero
terminator, QTYPE A (1) and QCLASS IN (1).  A `DomainPartTooLong` error
is returned before the send ever happens. -/
def buildDnsPacket (domain : String) : Except DnsError (List Nat) :=
  match writeQname (splitDot domain.data) dnsHeader with
  | Except.error e => Except.error e
  | Except.ok packet =>
      Except.ok (packet ++ [0] ++ u16beBytes 0x0001 ++ u16beBytes 0x0001)

theorem M.run_bind {α β : Type} (x : M α) (f : α → M β) (s : Nat) :
    (x >>= f).run s =
      (match x.run s with
       | (Except.ok a, t) => (f a).run t
       | (Except.error e, t) => (Except.error e, t)) := rfl

theorem queryIpUint_run_const (d : List Nat) (metadata : Metadata)
    (fuel ip numBits pos pos' : Nat) :
    (queryIpUint d metadata fuel ip numBits).run pos
      = (queryIpUint d metadata fuel ip numBits).run pos' := rfl

/-- C2: the claim states the size formulas of hints 29 and 30 hold for
every follow-up value, but the source adds at the width of the operand
(u8 for hint 29, u16 for hint 30), so the addition wraps: hint 29 with
next byte 255 yields size 28 instead of 284, hint 30 with next u16 65535
yields 284 instead of 65820. -/
theorem claim_c2_size_hint_overflow :
    (readSizeField [0xFF] 29).run 0 = (Except.ok 28, 1)
    ∧ (readSizeField [0xFF, 0xFF] 30).run 0 = (Except.ok 284, 2)
    ∧ 29 + 0xFF = 284 ∧ 285 + 0xFFFF = 65820 := ⟨rfl, rfl, rfl, rfl⟩

/-- C7: decoding an s32 (tag 8) with size 0 reaches
`reader.read_uint::<BigEndian>(0)`, whose byteorder implementation panics
(nbytes must be 1..=8), instead of yielding `S32(0)` as the claim states;
sizes 1-3 (unsigned then cast), size 4 (signed big-endian) and sizes
above 4 (`InvalidData`) behave as the claim states. -/
theorem claim_c7_s32_size0_panics :
    (readType [0x00, 0x01] none 1).run 0
      = (Except.error (MmdbError.rustPanic ("read_uint nbytes out of range")), 2)
    ∧ (readType [0x01, 0x01, 0xAB] none 1).run 0 = (Except.ok (Ty.s32 171), 3)
    ∧ (readType [0x04, 0x01, 0xFF, 0xFF, 0xFF, 0xFF] none 1).run 0
      = (Except.ok (Ty.s32 (-1)), 6)
    ∧ (readType [0x05, 0x01] none 1).run 0
      = (Except.error (MmdbError.invalidData ("bad s32 size")), 2) :=
  ⟨rfl, rfl, rfl, rfl⟩

/-- C5: on a database whose metadata ip version is 6, querying an IPv4
address is exactly querying its IPv4-compatible IPv6 representation, and
that query walks the full 128 bits. -/
theorem claim_c5_ipv4_on_v6 (d : List Nat) (metadata : Metadata)
    (fuel ip pos : Nat) (h : metadata.ipVersion = 6) :
    (queryIpv4 d metadata fuel ip).run pos
      = (queryIpv6 d metadata fuel (ipv4ToIpv6Compatible ip)).run pos
    ∧ (queryIpv6 d metadata fuel (ipv4ToIpv6Compatible ip)).run pos
      = (queryIpUint d metadata fuel (ipv4ToIpv6Compatible ip) 128).run pos := by
  constructor <;> simp [queryIpv4, queryIpv6, h]

theorem claim_c5_witness :
    ((⟨1, 24, 6⟩ : Metadata).ipVersion = 6)
    ∧ (queryIpv4 [] ⟨1, 24, 6⟩ 1 5).run 3
        = (queryIpv6 [] ⟨1, 24, 6⟩ 1 (ipv4ToIpv6Compatible 5)).run 3 :=
  ⟨rfl, (claim_c5_ipv4_on_v6 [] ⟨1, 24, 6⟩ 1 5 3 rfl).1⟩

/-- C6: on a database whose metadata ip version is 4, querying an IPv6
address fails with `WrongDatabaseType` with the cursor untouched, and the
outcome does not depend on the database bytes at all (so no trie walk is
performed). -/
theorem claim_c6_ipv6_on_v4 (d : List Nat) (metadata : Metadata)
    (fuel ip pos : Nat) (h : metadata.ipVersion = 4) :
    (queryIpv6 d metadata fuel ip).run pos
      = (Except.error MmdbError.wrongDatabaseType, pos)
    ∧ ∀ d' : List Nat,
        (queryIpv6 d metadata fuel ip).run pos
          = (queryIpv6 d' metadata fuel ip).run pos := by
  refine ⟨?_, fun d' => ?_⟩ <;> simp [queryIpv6, h, M.throw, M.run]

theorem claim_c6_witness :
    ((⟨1, 24, 4⟩ : Metadata).ipVersion = 4)
    ∧ (queryIpv6 [0, 1, 2] ⟨1, 24, 4⟩ 1 77).run 9
        = (Except.error MmdbError.wrongDatabaseType, 9) :=
  ⟨rfl, (claim_c6_ipv6_on_v4 [0, 1, 2] ⟨1, 24, 4⟩ 1 77 9 rfl).1⟩

/-- C10: a query is a function of the database bytes, the metadata and
the address only: its result does not depend on the incoming cursor
position, because `query_ip_uint` first seeks to offset 0 (and the error
dispatch branches never read), and the metadata of the handle is never
written after open.  In particular two consecutive calls on the same
handle return equal results. -/
theorem claim_c10_query_deterministic (d : List Nat) (metadata : Metadata)
    (fuel ip numBits pos pos' : Nat) :
    (queryIpUint d metadata fuel ip numBits).run pos
      = (queryIpUint d metadata fuel ip numBits).run pos'
    ∧ ((queryIpv4 d metadata fuel ip).run pos).1
      = ((queryIpv4 d metadata fuel ip).run pos').1
    ∧ ((queryIpv6 d metadata fuel ip).run pos).1
      = ((queryIpv6 d metadata fuel ip).run pos').1
    ∧ ((queryIpv4 d metadata fuel ip).run
         (((queryIpv4 d metadata fuel ip).run pos).2)).1
      = ((queryIpv4 d metadata fuel ip).run pos).1
    ∧ ((queryIpv6 d metadata fuel ip).run
         (((queryIpv6 d metadata fuel ip).run pos).2)).1
      = ((queryIpv6 d metadata fuel ip).run pos).1 := by
  have h4 : ∀ p p' : Nat,
      ((queryIpv4 d metadata fuel ip).run p).1
        = ((queryIpv4 d metadata fuel ip).run p').1 := by
    intro p p'
    by_cases h : metadata.ipVersion = 4
    · simp [queryIpv4, h, queryIpUint_run_const d metadata fuel ip 32 p p']
    · by_cases h6 : metadata.ipVersion = 6
      · simp [queryIpv4, queryIpv6, h, h6,
          queryIpUint_run_const d metadata fuel (ipv4ToIpv6Compatible ip) 128 p p']
      · simp [queryIpv4, h, h6, M.throw, M.run]
  have h6 : ∀ p p' : Nat,
      ((queryIpv6 d metadata fuel ip).run p).1
        = ((queryIpv6 d metadata fuel ip).run p').1 := by
    intro p p'
    by_cases h : metadata.ipVersion = 4
    · simp [queryIpv6, h, M.throw, M.run]
    · by_cases hx : metadata.ipVersion = 6
      · simp [queryIpv6, h, hx,
          queryIpUint_run_const d metadata fuel ip 128 p p']
      · simp [queryIpv6, h, hx, M.throw, M.run]
  exact ⟨queryIpUint_run_const d metadata fuel ip numBits pos pos',
    h4 pos pos', h6 pos pos', h4 _ pos, h6 _ pos⟩

theorem bytesPerNode_invalid {recordSize : Nat} (h24 : recordSize ≠ 24)
    (h28 : recordSize ≠ 28) (h32 : recordSize ≠ 32) :
    bytesPerNode recordSize
      = Except.error (MmdbError.invalidMetadata ("unsupported record_size")) := by
  simp [bytesPerNode, h24, h28, h32]

theorem queryLoop_record_size_invalid (d : List Nat) (metadata : Metadata)
    (fuel ip i pos : Nat) (h24 : metadata.recordSize ≠ 24)
    (h28 : metadata.recordSize ≠ 28) (h32 : metadata.recordSize ≠ 32) :
    (queryLoop d metadata fuel ip (i + 1)).run pos
      = (Except.error (MmdbError.invalidMetadata ("unsupported record_size")), pos) := by
  simp only [queryLoop, M.run_bind, readRecord,
    bytesPerNode_invalid h24 h28 h32]
  rfl

/-- C9: the metadata constructor only checks that the three required
fields are present with the required variants; every value is accepted at
open time, and a record size outside 24/28/32 or an ip version outside
4/6 is reported only when a query runs, as an `InvalidMetadata` error. -/
theorem claim_c9_lazy_metadata_validation :
    (∀ (entries : List (List Nat × Ty)) (nodeCount recordSize ipVersion : Nat),
       mapGet entries (strBytes ("node_count")) = some (Ty.u32 nodeCount) →
       mapGet entries (strBytes ("record_size")) = some (Ty.u16 recordSize) →
       mapGet entries (strBytes ("ip_version")) = some (Ty.u16 ipVersion) →
       metadataNew (Ty.map entries) = Except.ok ⟨nodeCount, recordSize, ipVersion⟩)
    ∧ (∀ (d : List Nat) (metadata : Metadata) (fuel ip pos : Nat),
         metadata.ipVersion ≠ 4 → metadata.ipVersion ≠ 6 →
         (queryIpv4 d metadata fuel ip).run pos
           = (Except.error (MmdbError.invalidMetadata ("database has invalid ip version")), pos)
         ∧ (queryIpv6 d metadata fuel ip).run pos
           = (Except.error (MmdbError.invalidMetadata ("database has invalid ip version")), pos))
    ∧ (∀ (d : List Nat) (metadata : Metadata) (fuel ip pos : Nat),
         metadata.ipVersion = 4 →
         metadata.recordSize ≠ 24 → metadata.recordSize ≠ 28 →
         metadata.recordSize ≠ 32 →
         (queryIpv4 d metadata fuel ip).run pos
           = (Except.error (MmdbError.invalidMetadata ("unsupported record_size")), 0))
    ∧ (∀ (d : List Nat) (metadata : Metadata) (fuel ip pos : Nat),
         metadata.ipVersion = 6 →
         metadata.recordSize ≠ 24 → metadata.recordSize ≠ 28 →
         metadata.recordSize ≠ 32 →
         (queryIpv6 d metadata fuel ip).run pos
           = (Except.error (MmdbError.invalidMetadata ("unsupported record_size")), 0)) := by
  refine ⟨?_, ?_, ?_, ?_⟩
  · intro entries nodeCount recordSize ipVersion h1 h2 h3
    simp [metadataNew, h1, h2, h3]
  · intro d metadata fuel ip pos h4 h6
    constructor <;> simp [queryIpv4, queryIpv6, h4, h6, M.throw, M.run]
  · intro d metadata fuel ip pos hv h24 h28 h32
    have : (queryLoop d metadata fuel ip (31 + 1)).run 0
        = (Except.error (MmdbError.invalidMetadata ("unsupported record_size")), 0) :=
      queryLoop_record_size_invalid d metadata fuel ip 31 0 h24 h28 h32
    simpa [queryIpv4, queryIpUint, hv, M.run_bind, M.seek, M.run] using this
  · intro d metadata fuel ip pos hv h24 h28 h32
    have : (queryLoop d metadata fuel ip (127 + 1)).run 0
        = (Except.error (MmdbError.invalidMetadata ("unsupported record_size")), 0) :=
      queryLoop_record_size_invalid d metadata fuel ip 127 0 h24 h28 h32
    simpa [queryIpv6, queryIpUint, hv, M.run_bind, M.seek, M.run] using this

theorem claim_c9_witness :
    metadataNew (Ty.map
        [(strBytes ("node_count"), Ty.u32 5),
         (strBytes ("record_size"), Ty.u16 99),
         (strBytes ("ip_version"), Ty.u16 7)])
      = Except.ok ⟨5, 99, 7⟩
    ∧ (queryIpv4 [] (⟨5, 99, 7⟩ : Metadata) 1 0).run 3
        = (Except.error (MmdbError.invalidMetadata ("database has invalid ip version")), 3)
    ∧ (queryIpv4 [] (⟨5, 99, 4⟩ : Metadata) 1 0).run 3
        = (Except.error (MmdbError.invalidMetadata ("unsupported record_size")), 0)
    ∧ (queryIpv6 [] (⟨5, 99, 6⟩ : Metadata) 1 0).run 3
        = (Except.error (MmdbError.invalidMetadata ("unsupported record_size")), 0) :=
  ⟨claim_c9_lazy_metadata_validation.1 _ 5 99 7 rfl rfl rfl,
   (claim_c9_lazy_metadata_validation.2.1 [] ⟨5, 99, 7⟩ 1 0 3
      (by decide) (by decide)).1,
   claim_c9_lazy_metadata_validation.2.2.1 [] ⟨5, 99, 4⟩ 1 0 3
      rfl (by decide) (by decide) (by decide),
   claim_c9_lazy_metadata_validation.2.2.2 [] ⟨5, 99, 6⟩ 1 0 3
      rfl (by decide) (by decide) (by decide)⟩

/-- C1: the classification of a node record against `node_count` is
exactly as specified (continue at `record * bytes_per_node`; `None` on
equality; decode at `record - node_count - 16 + search_tree_size + 16`
when greater), and the walk loop of `query_ip_uint` handles each
classification exactly that way. -/
theorem claim_c1_record_classification :
    (∀ bytesPerNodeVal nodeCount selectedRecord : Nat,
       (bytesPerNodeVal = 6 ∨ bytesPerNodeVal = 7 ∨ bytesPerNodeVal = 8) →
       nodeCount < 2 ^ 32 → selectedRecord < 2 ^ 32 →
       (selectedRecord < nodeCount →
          classifyRecord bytesPerNodeVal nodeCount selectedRecord
            = RecordReadResult.traverseTreeTo (selectedRecord * bytesPerNodeVal))
       ∧ (selectedRecord = nodeCount →
          classifyRecord bytesPerNodeVal nodeCount selectedRecord
            = RecordReadResult.noData)
       ∧ (nodeCount < selectedRecord →
          classifyRecord bytesPerNodeVal nodeCount selectedRecord
            = RecordReadResult.data
                (((selectedRecord : Int) - (nodeCount : Int) - 16
                   + (bytesPerNodeVal : Int) * (nodeCount : Int) + 16).toNat)))
    ∧ (∀ (d : List Nat) (metadata : Metadata) (fuel ip i pos pos' : Nat),
         (readRecord d metadata (queryBit ip i)).run pos
             = (Except.ok RecordReadResult.noData, pos') →
         (queryLoop d metadata fuel ip (i + 1)).run pos = (Except.ok none, pos'))
    ∧ (∀ (d : List Nat) (metadata : Metadata) (fuel ip i pos pos' p : Nat),
         (readRecord d metadata (queryBit ip i)).run pos
             = (Except.ok (RecordReadResult.data p), pos') →
         (queryLoop d metadata fuel ip (i + 1)).run pos
           = ((readType d (some metadata) fuel >>= fun typ => M.pure (some typ)).run p))
    ∧ (∀ (d : List Nat) (metadata : Metadata) (fuel ip i pos pos' p : Nat),
         (readRecord d metadata (queryBit ip i)).run pos
             = (Except.ok (RecordReadResult.traverseTreeTo p), pos') →
         (queryLoop d metadata fuel ip (i + 1)).run pos
           = (queryLoop d metadata fuel ip i).run p) := by
  refine ⟨?_, ?_, ?_, ?_⟩
  · intro bpn nc v hbpn hnc hv
    have hb8 : bpn ≤ 8 := by rcases hbpn with h | h | h <;> omega
    refine ⟨fun hlt => ?_, fun heq => ?_, fun hgt => ?_⟩
    · simp [classifyRecord, hlt]
    · simp [classifyRecord, heq]
    · have hne : ¬ v < nc := by omega
      have hne2 : ¬ v = nc := by omega
      simp only [classifyRecord, hne, hne2, if_false, ite_false]
      have hsts : bpn * nc % 2 ^ 128 = bpn * nc := by
        apply Nat.mod_eq_of_lt
        calc bpn * nc ≤ 8 * nc := Nat.mul_le_mul_right nc hb8
        _ < 8 * 2 ^ 32 := by omega
        _ < 2 ^ 128 := by norm_num
      rw [hsts]
      congr 1
      have hbig : bpn * nc < 2 ^ 35 := by
        calc bpn * nc ≤ 8 * nc := Nat.mul_le_mul_right nc hb8
        _ < 8 * 2 ^ 32 := by omega
        _ = 2 ^ 35 := by norm_num
      have e128 : (2 : Nat) ^ 128 = 340282366920938463463374607431768211456 := by norm_num
      have e64 : (2 : Nat) ^ 64 = 18446744073709551616 := by norm_num
      have e35 : (2 : Nat) ^ 35 = 34359738368 := by norm_num
      have e32 : (2 : Nat) ^ 32 = 4294967296 := by norm_num
      rw [e128, e64] at *
      rw [e35] at hbig
      rw [e32] at hnc hv
      omega
  · intro d metadata fuel ip i pos pos' h
    simp only [queryLoop, M.run_bind, h]
    rfl
  · intro d metadata fuel ip i pos pos' p h
    simp only [queryLoop, M.run_bind, h]
    rfl
  · intro d metadata fuel ip i pos pos' p h
    simp only [queryLoop, M.run_bind, h]
    rfl

theorem claim_c1_witness :
    classifyRecord 6 1 17 = RecordReadResult.data 22
    ∧ classifyRecord 6 1 1 = RecordReadResult.noData
    ∧ classifyRecord 6 1 0 = RecordReadResult.traverseTreeTo 0
    ∧ (queryLoop [0, 0, 1, 0, 0, 1] (⟨1, 24, 4⟩ : Metadata) 1 0 1).run 0
        = (Except.ok none, 6) := by
  refine ⟨?_, ?_, ?_, ?_⟩
  · have h := (claim_c1_record_classification.1 6 1 17 (Or.inl rfl)
      (by norm_num) (by norm_num)).2.2 (by norm_num)
    simpa using h
  · exact (claim_c1_record_classification.1 6 1 1 (Or.inl rfl)
      (by norm_num) (by norm_num)).2.1 rfl
  · exact (claim_c1_record_classification.1 6 1 0 (Or.inl rfl)
      (by norm_num) (by norm_num)).1 (by norm_num)
  · exact claim_c1_record_classification.2.1 [0, 0, 1, 0, 0, 1] ⟨1, 24, 4⟩ 1 0 0 0 6 rfl

theorem writeQname_too_long :
    ∀ (parts : List (List Char)) (packet : List Nat),
      (∃ part ∈ parts, 256 ≤ (partBytes part).length) →
      writeQname parts packet = Except.error DnsError.domainPartTooLong := by
  intro parts
  induction parts with
  | nil => intro packet h; exact absurd h (by simp)
  | cons part rest ih =>
      intro packet h
      by_cases hlen : 256 ≤ (partBytes part).length
      · simp [writeQname, hlen]
      · rcases h with ⟨q, hq, hqlen⟩
        rcases List.mem_cons.mp hq with rfl | hqrest
        · exact absurd hqlen hlen
        · simp only [writeQname, hlen, if_neg, ite_false]
          exact ih _ ⟨q, hqrest, hqlen⟩

theorem writeQname_ok :
    ∀ (parts : List (List Char)) (packet : List Nat),
      (∀ part ∈ parts, (partBytes part).length < 256) →
      writeQname parts packet
        = Except.ok (packet
            ++ (parts.map (fun part => (partBytes part).length :: partBytes part)).flatten) := by
  intro parts
  induction parts with
  | nil => intro packet _; simp [writeQname]
  | cons part rest ih =>
      intro packet h
      have hlen : ¬ 256 ≤ (partBytes part).length := by
        have := h part (List.mem_cons_self part rest)
        omega
      simp only [writeQname, hlen, ite_false]
      rw [ih _ (fun q hq => h q (List.mem_cons_of_mem part hq))]
      simp

/-- C8: the DNS query encoder emits the fixed header followed by every
dot-separated part of the domain as a length-prefixed label, a zero
terminator, QTYPE 1 and QCLASS 1; `example.com` encodes as
`[7] example [3] com [0]`, and a part of 256 bytes or more makes packet
construction fail with `DomainPartTooLong` (in the source this happens
while the packet is being built, before the socket send). -/
theorem claim_c8_dns_encoder :
    buildDnsPacket "example.com"
      = Except.ok (dnsHeader
          ++ ([7] ++ strBytes ("example") ++ [3] ++ strBytes ("com"))
          ++ [0] ++ u16beBytes 1 ++ u16beBytes 1)
    ∧ (∀ (domain : String) (part : List Char),
         part ∈ splitDot domain.data → 256 ≤ (partBytes part).length →
         buildDnsPacket domain = Except.error DnsError.domainPartTooLong)
    ∧ (∀ domain : String,
         (∀ part ∈ splitDot domain.data, (partBytes part).length < 256) →
         buildDnsPacket domain
           = Except.ok (dnsHeader
               ++ ((splitDot domain.data).map
                     (fun part => (partBytes part).length :: partBytes part)).flatten
               ++ [0] ++ u16beBytes 1 ++ u16beBytes 1)) := by
  refine ⟨rfl, ?_, ?_⟩
  · intro domain part hmem hlen
    simp only [buildDnsPacket,
      writeQname_too_long (splitDot domain.data) dnsHeader ⟨part, hmem, hlen⟩]
  · intro domain h
    simp only [buildDnsPacket, writeQname_ok (splitDot domain.data) dnsHeader h]

set_option maxRecDepth 10000 in
theorem claim_c8_witness :
    buildDnsPacket (String.mk (List.replicate 256 'a'))
      = Except.error DnsError.domainPartTooLong
    ∧ buildDnsPacket "ab"
        = Except.ok (dnsHeader
            ++ ((splitDot "ab".data).map
                  (fun part => (partBytes part).length :: partBytes part)).flatten
            ++ [0] ++ u16beBytes 1 ++ u16beBytes 1) :=
  ⟨claim_c8_dns_encoder.2.1 (String.mk (List.replicate 256 'a'))
      (List.replicate 256 'a') (by decide) (by decide),
   claim_c8_dns_encoder.2.2 "ab" (by decide)⟩

theorem isMarkerAt_length_bound {contents : List Nat} {i : Nat}
    (h : isMarkerAt contents i = true) :
    i + metadataMarker.length ≤ contents.length := by
  have heq : (contents.drop i).take metadataMarker.length = metadataMarker :=
    of_decide_eq_true h
  have hlen := congrArg List.length heq
  rw [List.length_take, List.length_drop] at hlen
  have hm : metadataMarker.length = 14 := by rfl
  rw [hm] at hlen ⊢
  omega

theorem rfindMarkerAux_eq_none {contents : List Nat} :
    ∀ {k : Nat}, rfindMarkerAux contents k = none ↔
      ∀ j, j < k → isMarkerAt contents j = false := by
  intro k
  induction k with
  | zero => simp [rfindMarkerAux]
  | succ k ih =>
      constructor
      · intro h j hj
        by_cases hk : isMarkerAt contents k
        · simp [rfindMarkerAux, hk] at h
        · rcases Nat.lt_succ_iff_lt_or_eq.mp hj with hlt | rfl
          · simp only [rfindMarkerAux, hk, ite_false, if_neg] at h
            exact ih.mp h j hlt
          · exact Bool.not_eq_true _ ▸ eq_false_of_ne_true hk
      · intro h
        have hk : isMarkerAt contents k = false := h k (Nat.lt_succ_self k)
        simp only [rfindMarkerAux, hk]
        simpa using ih.mpr (fun j hj => h j (Nat.lt_succ_of_lt hj))

theorem rfindMarkerAux_eq_some {contents : List Nat} :
    ∀ {k i : Nat}, rfindMarkerAux contents k = some i →
      isMarkerAt contents i = true ∧ i < k ∧
        ∀ j, i < j → j < k → isMarkerAt contents j = false := by
  intro k
  induction k with
  | zero => intro i h; simp [rfindMarkerAux] at h
  | succ k ih =>
      intro i h
      by_cases hk : isMarkerAt contents k
      · have hik : i = k := by
          simp only [rfindMarkerAux, hk, ite_true, Option.some.injEq] at h
          omega
        subst hik
        exact ⟨hk, Nat.lt_succ_self i, fun j hij hjk => by omega⟩
      · simp only [rfindMarkerAux, hk, ite_false, if_neg] at h
        obtain ⟨h1, h2, h3⟩ := ih h
        refine ⟨h1, Nat.lt_succ_of_lt h2, fun j hij hjk => ?_⟩
        rcases Nat.lt_succ_iff_lt_or_eq.mp hjk with hlt | rfl
        · exact h3 j hij hlt
        · exact eq_false_of_ne_true hk

/-- C4: the metadata locator decodes at the position immediately after
the rightmost marker occurrence inside the scanned tail window: when the
scan finds index `i`, the window at `i` is a marker occurrence, no larger
index is, and `Mmdb::new` proceeds by decoding one value at `i + 14`;
when no index of the window holds a marker occurrence, `Mmdb::new` fails
with `MetadataNotFound`. -/
theorem claim_c4_rightmost_marker (d : List Nat) (fuel : Nat) :
    ((∀ j, isMarkerAt (tailWindow d) j = false) →
       mmdbNew fuel d = Except.error MmdbError.metadataNotFound)
    ∧ (∀ i, rfindMarker (tailWindow d) = some i →
         isMarkerAt (tailWindow d) i = true
         ∧ (∀ j, isMarkerAt (tailWindow d) j = true → j ≤ i)
         ∧ mmdbNew fuel d =
             (match (readType (tailWindow d) none fuel).run
                 (i + metadataMarker.length) with
              | (Except.ok typ, _) =>
                  (match metadataNew typ with
                   | Except.ok metadata => Except.ok ⟨d, 0, metadata⟩
                   | Except.error e => Except.error e)
              | (Except.error e, _) => Except.error e)) := by
  constructor
  · intro h
    have hnone : rfindMarker (tailWindow d) = none :=
      rfindMarkerAux_eq_none.mpr (fun j _ => h j)
    unfold mmdbNew
    rw [hnone]
  · intro i h
    have haux := rfindMarkerAux_eq_some h
    obtain ⟨h1, h2, h3⟩ := haux
    refine ⟨h1, ?_, ?_⟩
    · intro j hj
      by_contra hji
      have hjlt : j < (tailWindow d).length + 1 - metadataMarker.length := by
        have := isMarkerAt_length_bound hj
        have hm : metadataMarker.length = 14 := rfl
        omega
      have := h3 j (by omega) hjlt
      rw [hj] at this
      exact Bool.true_eq_false.mp this
    · unfold mmdbNew
      rw [h]

theorem claim_c4_witness :
    rfindMarker (tailWindow (metadataMarker ++ metadataMarker)) = some 14
    ∧ isMarkerAt (tailWindow (metadataMarker ++ metadataMarker)) 14 = true
    ∧ mmdbNew 1 (metadataMarker ++ metadataMarker)
        = Except.error MmdbError.badIo := by
  have h := (claim_c4_rightmost_marker (metadataMarker ++ metadataMarker) 1).2
    14 (by rfl)
  exact ⟨by rfl, h.1, h.2.2.trans (by rfl)⟩

theorem followPointer_run_snd (m : Metadata) (nextValue : Nat)
    (recurse : M Ty) (s : Nat) :
    ((followPointer m nextValue recurse).run s).2 = s := by
  unfold followPointer
  rw [M.run_bind]
  cases hbpn : bytesPerNode m.recordSize with
  | error e => rfl
  | ok bpn => rfl

theorem M.run_pure {α : Type} (a : α) (s : Nat) :
    ((M.pure a : M α)).run s = (Except.ok a, s) := rfl

theorem readU8_run (d : List Nat) (s : Nat) :
    (readU8 d).run s =
      (match d.get? s with
       | some b => (Except.ok b, s + 1)
       | none => (Except.error MmdbError.badIo, s)) := rfl

theorem readExact_run (d : List Nat) (n s : Nat) :
    (readExact d n).run s =
      (if s + n ≤ d.length then (Except.ok ((d.drop s).take n), s + n)
       else (Except.error MmdbError.badIo, s)) := rfl

/-- C3: decoding a pointer-typed value restores the cursor: whenever the
control byte at `pos` resolves to the pointer tag (directly, or through
the escape byte that wraps back to tag 1) and the pointer's own encoded
bytes are all present, `read_type` ends with the cursor at `s + width + 1`,
the position immediately after the pointer's encoded bytes, whether the
recursive decode at the target succeeds or fails (on failure the error is
returned but the restoring seek has already happened). -/
theorem claim_c3_pointer_restores_cursor
    (d : List Nat) (m : Metadata) (fuel pos s b : Nat)
    (hb : d.get? pos = some b)
    (hshape : (b >>> 5 = 1 ∧ s = pos + 1)
      ∨ (b >>> 5 = 0 ∧ d.get? (pos + 1) = some 250 ∧ s = pos + 2))
    (hlen : s + ((b &&& 0x1f) >>> 3) + 1 ≤ d.length) :
    ((readType d (some m) (fuel + 1)).run pos).2
      = s + ((b &&& 0x1f) >>> 3) + 1 := by
  have hwbound : (b &&& 0x1f) >>> 3 < 4 := by
    have h31 : b &&& 0x1f ≤ 31 := Nat.and_le_right
    have := Nat.shiftRight_eq_div_pow (b &&& 0x1f) 3
    omega
  have hw : (b &&& 0x1f) >>> 3 = 0 ∨ (b &&& 0x1f) >>> 3 = 1
      ∨ (b &&& 0x1f) >>> 3 = 2 ∨ (b &&& 0x1f) >>> 3 = 3 := by omega
  have h7 : (7 + 250) % 256 = 1 := by norm_num
  rcases hshape with ⟨hA, rfl⟩ | ⟨hA, h250, rfl⟩
  · rcases hw with hw | hw | hw | hw
    · rw [hw] at hlen ⊢
      obtain ⟨b2, hb2⟩ : ∃ x, d.get? (pos + 1) = some x := by
        have hlt : pos + 1 < d.length := by omega
        exact ⟨d.get ⟨pos + 1, hlt⟩, List.get?_eq_get hlt⟩
      simp only [readType, M.run_bind, readU8_run, hb, hA, hw, M.run_pure,
        ne_eq, hb2, not_true, if_false, followPointer_run_snd]
    · rw [hw] at hlen ⊢
      have hc : pos + 1 + 2 ≤ d.length := by omega
      simp only [readType, M.run_bind, readU8_run, readExact_run, hb, hA, hw,
        M.run_pure, ne_eq, hc, if_true, ite_true, not_true, if_false,
        followPointer_run_snd]
    · rw [hw] at hlen ⊢
      have hc : pos + 1 + 3 ≤ d.length := by omega
      simp only [readType, M.run_bind, readU8_run, readExact_run, hb, hA, hw,
        M.run_pure, ne_eq, hc, if_true, ite_true, not_true, if_false,
        followPointer_run_snd]
    · rw [hw] at hlen ⊢
      have hc : pos + 1 + 4 ≤ d.length := by omega
      simp only [readType, M.run_bind, readU8_run, readU32be, readExact_run,
        hb, hA, hw, M.run_pure, ne_eq, hc, if_true, ite_true, not_true,
        if_false, followPointer_run_snd]
  · rcases hw with hw | hw | hw | hw
    · rw [hw] at hlen ⊢
      obtain ⟨b2, hb2⟩ : ∃ x, d.get? (pos + 2) = some x := by
        have hlt : pos + 2 < d.length := by omega
        exact ⟨d.get ⟨pos + 2, hlt⟩, List.get?_eq_get hlt⟩
      simp only [readType, M.run_bind, readU8_run, hb, hA, h250, hw, h7,
        M.run_pure, ne_eq, hb2, not_true, if_false, followPointer_run_snd]
    · rw [hw] at hlen ⊢
      have hc : pos + 2 + 2 ≤ d.length := by omega
      simp only [readType, M.run_bind, readU8_run, readExact_run, hb, hA,
        h250, hw, h7, M.run_pure, ne_eq, hc, if_true, ite_true, not_true,
        if_false, followPointer_run_snd]
    · rw [hw] at hlen ⊢
      have hc : pos + 2 + 3 ≤ d.length := by omega
      simp only [readType, M.run_bind, readU8_run, readExact_run, hb, hA,
        h250, hw, h7, M.run_pure, ne_eq, hc, if_true, ite_true, not_true,
        if_false, followPointer_run_snd]
    · rw [hw] at hlen ⊢
      have hc : pos + 2 + 4 ≤ d.length := by omega
      simp only [readType, M.run_bind, readU8_run, readU32be, readExact_run,
        hb, hA, h250, hw, h7, M.run_pure, ne_eq, hc, if_true, ite_true,
        not_true, if_false, followPointer_run_snd]

theorem claim_c3_witness :
    [0x20, 0x05].get? 0 = some 0x20
    ∧ ((readType [0x20, 0x05] (some (⟨0, 24, 4⟩ : Metadata)) 1).run 0).2 = 2 :=
  ⟨rfl, by
    have h := claim_c3_pointer_restores_cursor [0x20, 0x05] ⟨0, 24, 4⟩ 0 0 1 0x20
      rfl (Or.inl ⟨rfl, rfl⟩) (by decide)
    exact h⟩
